import Mathlib

/-!
Verification development for the quantpak repository.

Shallow embedding of the parts of the code the claims are about:
* src/quantpak/data/processors.py — ReturnCalculator and TechnicalIndicators
  (pandas series are modelled as lists of rationals, NaN cells as none);
* src/quantpak/strategies/base.py — Signal, BaseStrategy state and its
  methods (the stateful methods are modelled by explicit state passing);
* src/examples/basic_strategy_example.py — MovingAverageCrossover.

Floating-point arithmetic is modelled by exact rational arithmetic; the
IEEE special values NaN / +inf / -inf that pandas produces (rolling windows
that are not yet full, division by zero in rsi) are modelled explicitly by
an Option layer resp. the FVal type below.
-/

/-- Python float comparison a <= b, where a comparison with NaN is False.
NaN is modelled by none. -/
def oleB : Option ℚ → Option ℚ → Bool
  | some a, some b => decide (a ≤ b)
  | _, _ => false

/-- Python float comparison a < b; False when either side is NaN. -/
def oltB : Option ℚ → Option ℚ → Bool
  | some a, some b => decide (a < b)
  | _, _ => false

/-- Python float comparison a >= b; False when either side is NaN. -/
def ogeB : Option ℚ → Option ℚ → Bool
  | some a, some b => decide (b ≤ a)
  | _, _ => false

/-- Python float comparison a > b; False when either side is NaN. -/
def ogtB : Option ℚ → Option ℚ → Bool
  | some a, some b => decide (b < a)
  | _, _ => false

/-- A pandas DataFrame restricted to what the embedded code reads: a row
index (timestamps, modelled as naturals) and named numeric columns whose
cells may be NaN (none). -/
structure DataFrame where
  index : List ℕ
  cols : List (String × List (Option ℚ))
deriving DecidableEq

/-- Column access data[name]; a missing column is modelled as the empty
series (the embedded claims only read columns that are present). -/
def DataFrame.col (df : DataFrame) (name : String) : List (Option ℚ) :=
  ((df.cols.find? fun p => p.1 = name).map Prod.snd).getD []

/-- Python len(data): the number of rows. -/
def DataFrame.nrows (df : DataFrame) : ℕ :=
  df.index.length

/-- data.columns. -/
def DataFrame.columns (df : DataFrame) : List String :=
  df.cols.map Prod.fst

/-- A single new record (pandas Series passed to BaseStrategy.update):
its timestamp and one cell per column name. -/
structure Row where
  index : ℕ
  cells : List (String × Option ℚ)
deriving DecidableEq

/-- pd.concat([df, row.to_frame().T]) for a row whose columns match the
frame's: the row's timestamp and, for each existing column, the row's cell
(NaN when the row lacks that column) are appended. -/
def DataFrame.appendRow (df : DataFrame) (r : Row) : DataFrame :=
  { index := df.index ++ [r.index]
    cols := df.cols.map fun c =>
      (c.1, c.2 ++ [((r.cells.find? fun p => p.1 = c.1).map Prod.snd).getD none]) }

/-- df.tail(1): the frame restricted to its last row. -/
def DataFrame.tail1 (df : DataFrame) : DataFrame :=
  { index := df.index.drop (df.index.length - 1)
    cols := df.cols.map fun c => (c.1, c.2.drop (c.2.length - 1)) }

namespace TechnicalIndicators

/-- TechnicalIndicators.sma: prices.rolling(window=window).mean().
pandas semantics (min_periods defaults to the window): position i is NaN
until the window is full (i < window - 1) or when the window contains a
NaN, and the window mean otherwise.  pandas rejects window = 0; the
embedding returns all-NaN there and every claim assumes 1 <= window. -/
def sma (prices : List (Option ℚ)) (window : ℕ) : List (Option ℚ) :=
  (List.range prices.length).map fun i =>
    if 1 ≤ window ∧ window ≤ i + 1 then
      let win := (prices.drop (i + 1 - window)).take window
      if win.all Option.isSome then
        some ((win.map fun o => o.getD 0).sum / window)
      else none
    else none

/-- The decay factor 1 - alpha of pandas ewm(span=span), alpha = 2/(span+1). -/
def emaWeight (span : ℕ) : ℚ :=
  1 - 2 / ((span : ℚ) + 1)

/-- TechnicalIndicators.ema: prices.ewm(span=window).mean().
pandas ewm defaults to adjust=True, i.e. the weighted-history form
y[t] = (sum_j w^j * x[t-j]) / (sum_j w^j) with w = 1 - 2/(span+1),
NOT the plain recursion y[t] = alpha*x[t] + (1-alpha)*y[t-1]. -/
def ema (prices : List ℚ) (span : ℕ) : List ℚ :=
  (List.range prices.length).map fun t =>
    (∑ j in Finset.range (t + 1), emaWeight span ^ j * prices.getD (t - j) 0) /
    (∑ j in Finset.range (t + 1), emaWeight span ^ j)

end TechnicalIndicators

/-- Modelled from the spec: the reference exponential-moving-average
recursion of spec section 4.1 — output[0] = input[0],
output[i] = alpha * input[i] + (1 - alpha) * output[i-1].  Auxiliary
function carrying the previous output value. -/
def emaRecAux (alpha : ℚ) (prev : ℚ) : List ℚ → List ℚ
  | [] => []
  | x :: xs => (alpha * x + (1 - alpha) * prev) :: emaRecAux alpha (alpha * x + (1 - alpha) * prev) xs

/-- Modelled from the spec: the reference recursion for the exponential
moving average with smoothing factor alpha = 2/(S+1) (spec section 4.1),
to be compared with the implementation's TechnicalIndicators.ema. -/
def emaRecSpec (prices : List ℚ) (span : ℕ) : List ℚ :=
  match prices with
  | [] => []
  | x :: xs => x :: emaRecAux (2 / ((span : ℚ) + 1)) x xs

namespace ReturnCalculator

/-- ReturnCalculator.simple_returns: prices.pct_change().
Position 0 is NaN; position i >= 1 is prices[i] / prices[i-1] - 1.
(The claims assume all prices nonzero, so the IEEE inf of a zero
denominator does not arise.) -/
def simple_returns (prices : List ℚ) : List (Option ℚ) :=
  (List.range prices.length).map fun i =>
    if i = 0 then none
    else some (prices.getD i 0 / prices.getD (i - 1) 0 - 1)

/-- pandas Series.cumprod with its default skipna=True: NaN positions stay
NaN and do not enter the running product.  Auxiliary recursion carrying the
running product. -/
def cumprodAux (acc : ℚ) : List (Option ℚ) → List (Option ℚ)
  | [] => []
  | none :: xs => none :: cumprodAux acc xs
  | some v :: xs => some (acc * v) :: cumprodAux (acc * v) xs

/-- ReturnCalculator.cumulative_returns: (1 + returns).cumprod() - 1. -/
def cumulative_returns (returns : List (Option ℚ)) : List (Option ℚ) :=
  (cumprodAux 1 (returns.map (Option.map fun r => 1 + r))).map
    (Option.map fun x => x - 1)

end ReturnCalculator

/-- An IEEE double as pandas produces it in the rsi computation: a finite
value (exact rational here), NaN, or a signed infinity. -/
inductive FVal where
  | nan : FVal
  | posinf : FVal
  | neginf : FVal
  | val : ℚ → FVal
deriving DecidableEq

/-- A series cell as an IEEE value: NaN for none. -/
def FVal.ofOption : Option ℚ → FVal
  | none => FVal.nan
  | some q => FVal.val q

/-- IEEE negation. -/
def FVal.neg : FVal → FVal
  | FVal.nan => FVal.nan
  | FVal.posinf => FVal.neginf
  | FVal.neginf => FVal.posinf
  | FVal.val q => FVal.val (-q)

/-- IEEE addition (NaN propagates; inf + (-inf) = NaN). -/
def FVal.add : FVal → FVal → FVal
  | FVal.nan, _ => FVal.nan
  | _, FVal.nan => FVal.nan
  | FVal.posinf, FVal.neginf => FVal.nan
  | FVal.neginf, FVal.posinf => FVal.nan
  | FVal.posinf, _ => FVal.posinf
  | _, FVal.posinf => FVal.posinf
  | FVal.neginf, _ => FVal.neginf
  | _, FVal.neginf => FVal.neginf
  | FVal.val a, FVal.val b => FVal.val (a + b)

/-- IEEE subtraction. -/
def FVal.sub (a b : FVal) : FVal :=
  FVal.add a (FVal.neg b)

/-- IEEE division as pandas produces it: NaN propagates, inf/inf = NaN,
finite/inf = 0, x/0 is a signed infinity for x nonzero and NaN for 0/0
(ℚ has a single zero, which a NumPy quotient of finite operands reaches
as +0.0). -/
def FVal.div : FVal → FVal → FVal
  | FVal.nan, _ => FVal.nan
  | _, FVal.nan => FVal.nan
  | FVal.posinf, FVal.posinf => FVal.nan
  | FVal.posinf, FVal.neginf => FVal.nan
  | FVal.neginf, FVal.posinf => FVal.nan
  | FVal.neginf, FVal.neginf => FVal.nan
  | FVal.posinf, FVal.val b => if 0 ≤ b then FVal.posinf else FVal.neginf
  | FVal.neginf, FVal.val b => if 0 ≤ b then FVal.neginf else FVal.posinf
  | FVal.val _, FVal.posinf => FVal.val 0
  | FVal.val _, FVal.neginf => FVal.val 0
  | FVal.val a, FVal.val b =>
    if b = 0 then
      if a = 0 then FVal.nan else if 0 < a then FVal.posinf else FVal.neginf
    else FVal.val (a / b)

namespace TechnicalIndicators

/-- prices.diff(): position 0 is NaN, position i is prices[i] - prices[i-1]. -/
def diff (prices : List ℚ) : List (Option ℚ) :=
  (List.range prices.length).map fun i =>
    if i = 0 then none
    else some (prices.getD i 0 - prices.getD (i - 1) 0)

/-- delta.where(delta > 0, 0) applied to one cell: a positive delta is
kept, anything else — including the leading NaN, for which NaN > 0 is
False — becomes 0. -/
def whereGain : Option ℚ → ℚ
  | some x => if 0 < x then x else 0
  | none => 0

/-- (-delta.where(delta < 0, 0)) applied to one cell: a negative delta is
negated, anything else — including the leading NaN — becomes 0. -/
def whereLoss : Option ℚ → ℚ
  | some x => if x < 0 then -x else 0
  | none => 0

/-- rsi's gain series: (delta.where(delta > 0, 0)).rolling(window).mean(). -/
def gain (prices : List ℚ) (window : ℕ) : List (Option ℚ) :=
  sma (((diff prices).map whereGain).map some) window

/-- rsi's loss series: (-delta.where(delta < 0, 0)).rolling(window).mean(). -/
def loss (prices : List ℚ) (window : ℕ) : List (Option ℚ) :=
  sma (((diff prices).map whereLoss).map some) window

/-- TechnicalIndicators.rsi: rs = gain / loss; rsi = 100 - (100 / (1 + rs)),
elementwise with IEEE semantics (the divisions can produce inf and NaN). -/
def rsi (prices : List ℚ) (window : ℕ) : List FVal :=
  (List.range prices.length).map fun i =>
    let rs := FVal.div (FVal.ofOption ((gain prices window).getD i none))
      (FVal.ofOption ((loss prices window).getD i none))
    FVal.sub (FVal.val 100) (FVal.div (FVal.val 100) (FVal.add (FVal.val 1) rs))

end TechnicalIndicators

/-- SignalType (strategies/base.py): BUY = 1, SELL = -1, HOLD = 0. -/
inductive SignalType where
  | BUY : SignalType
  | SELL : SignalType
  | HOLD : SignalType
deriving DecidableEq

/-- SignalType.value: the numeric code of the enum member. -/
def SignalType.value : SignalType → ℤ
  | SignalType.BUY => 1
  | SignalType.SELL => -1
  | SignalType.HOLD => 0

/-- The Signal dataclass (strategies/base.py): timestamp, symbol,
signal_type, strength (default 1.0), price (default None), metadata
(default None, an optional string mapping). -/
structure Signal where
  timestamp : ℕ
  symbol : String
  signal_type : SignalType
  strength : ℚ := 1
  price : Option ℚ := none
  metadata : Option (List (String × String)) := none
deriving DecidableEq

/-- The state of a BaseStrategy (here always the MovingAverageCrossover
subclass, whose parameters are the two integer windows): name, parameters,
collected signals, optionally bound data, initialized flag. -/
structure MAStrategy where
  name : String
  parameters : List (String × ℕ)
  signals : List Signal
  data : Option DataFrame
  initialized : Bool
deriving DecidableEq

/-- MovingAverageCrossover.__init__(short_window, long_window): calls
BaseStrategy.__init__("MA Crossover", the two windows); signals start
empty, data None, initialized False. -/
def mkCrossover (short_window long_window : ℕ) : MAStrategy :=
  { name := "MA Crossover"
    parameters := [("short_window", short_window), ("long_window", long_window)]
    signals := []
    data := none
    initialized := false }

/-- BaseStrategy.get_parameter: self.parameters.get(key, default). -/
def MAStrategy.get_parameter (s : MAStrategy) (key : String) (default : ℕ) : ℕ :=
  (((s.parameters.find? fun p => p.1 = key).map Prod.snd).getD default)

/-- BaseStrategy.set_parameter: self.parameters[key] = value. -/
def MAStrategy.set_parameter (s : MAStrategy) (key : String) (value : ℕ) : MAStrategy :=
  { s with parameters :=
      if s.parameters.any fun p => p.1 = key then
        s.parameters.map fun p => if p.1 = key then (key, value) else p
      else s.parameters ++ [(key, value)] }

/-- The Buy signal MovingAverageCrossover.generate_signals builds at loop
index i: timestamp data.index[i], symbol 'AAPL', BUY, the Close price at
i, strength 1.0. -/
def buySignalAt (data : DataFrame) (i : ℕ) : Signal :=
  { timestamp := data.index.getD i 0
    symbol := "AAPL"
    signal_type := SignalType.BUY
    strength := 1
    price := (data.col "Close").getD i none
    metadata := none }

/-- The Sell signal MovingAverageCrossover.generate_signals builds at loop
index i. -/
def sellSignalAt (data : DataFrame) (i : ℕ) : Signal :=
  { timestamp := data.index.getD i 0
    symbol := "AAPL"
    signal_type := SignalType.SELL
    strength := 1
    price := (data.col "Close").getD i none
    metadata := none }

/-- The loop body of MovingAverageCrossover.generate_signals, with the two
windows already read from the parameters.  For i in
range(long_window, len(data)) it compares the previous and current values
of the two moving averages — a comparison against a NaN (a window not yet
full) is False — and appends a Buy on an upward cross, elif a Sell on a
downward cross. -/
def crossSignals (short_window long_window : ℕ) (data : DataFrame) : List Signal :=
  let short_ma := TechnicalIndicators.sma (data.col "Close") short_window
  let long_ma := TechnicalIndicators.sma (data.col "Close") long_window
  (List.range' long_window (data.nrows - long_window)).foldl
    (fun signals i =>
      let current_short := short_ma.getD i none
      let current_long := long_ma.getD i none
      let prev_short := short_ma.getD (i - 1) none
      let prev_long := long_ma.getD (i - 1) none
      if oleB prev_short prev_long && ogtB current_short current_long then
        signals ++ [buySignalAt data i]
      else if ogeB prev_short prev_long && oltB current_short current_long then
        signals ++ [sellSignalAt data i]
      else signals)
    []

/-- MovingAverageCrossover.generate_signals as a method: it reads the two
window parameters from the strategy state, mutates nothing, and returns
the signal list.  The state is threaded explicitly to express that the
method leaves it unchanged. -/
def MAStrategy.generate_signals (s : MAStrategy) (data : DataFrame) :
    MAStrategy × List Signal :=
  let short_window := s.get_parameter "short_window" 0
  let long_window := s.get_parameter "long_window" 0
  (s, crossSignals short_window long_window data)

/-- BaseStrategy.initialize (renamed: initData): binds the historical data
and sets the initialized flag. -/
def MAStrategy.initData (s : MAStrategy) (data : DataFrame) : MAStrategy :=
  { s with data := some data, initialized := true }

/-- BaseStrategy.update: raises ValueError — the spec taxonomy's
StateError — when not initialized (the pair then carries the unchanged
state and the error); otherwise appends the new record to the bound data,
runs generate_signals on the one-row tail and returns signals[0] if any,
else None. -/
def MAStrategy.update (s : MAStrategy) (new_data : Row) :
    MAStrategy × Except String (Option Signal) :=
  if s.initialized = false then
    (s, Except.error "Strategy must be initialized before updating")
  else
    let newData := (s.data.getD { index := [], cols := [] }).appendRow new_data
    let s2 := { s with data := some newData }
    let res := s2.generate_signals newData.tail1
    (res.1, Except.ok res.2.head?)

/-- BaseStrategy.validate_data: all five required columns are present
(self is not consulted, so the embedding takes only the frame). -/
def validate_data (data : DataFrame) : Bool :=
  ["Open", "High", "Low", "Close", "Volume"].all fun col => data.columns.contains col

/-- The per-index decision of the crossover loop: the optional signal the
body of MovingAverageCrossover.generate_signals appends at index i.  Used
to restate the foldl of crossSignals as a filterMap. -/
def emitAt (short_window long_window : ℕ) (data : DataFrame) (i : ℕ) : Option Signal :=
  let short_ma := TechnicalIndicators.sma (data.col "Close") short_window
  let long_ma := TechnicalIndicators.sma (data.col "Close") long_window
  if oleB (short_ma.getD (i - 1) none) (long_ma.getD (i - 1) none) &&
      ogtB (short_ma.getD i none) (long_ma.getD i none) then
    some (buySignalAt data i)
  else if ogeB (short_ma.getD (i - 1) none) (long_ma.getD (i - 1) none) &&
      oltB (short_ma.getD i none) (long_ma.getD i none) then
    some (sellSignalAt data i)
  else none

/-! ### Helper lemmas -/

lemma getD_map_range {α : Type} (n i : ℕ) (f : ℕ → α) (d : α) (h : i < n) :
    ((List.range n).map f).getD i d = f i := by
  simp [List.getD_eq_getElem?_getD, List.getElem?_map, List.getElem?_range, h]

lemma foldl_ifs_filterMap {α β : Type} (b1 b2 : α → Bool) (g1 g2 : α → β)
    (l : List α) (acc : List β) :
    l.foldl (fun acc2 i =>
        if b1 i then acc2 ++ [g1 i]
        else if b2 i then acc2 ++ [g2 i]
        else acc2) acc
      = acc ++ l.filterMap fun i =>
          if b1 i then some (g1 i) else if b2 i then some (g2 i) else none := by
  induction l generalizing acc with
  | nil => simp
  | cons x t ih =>
    by_cases h1 : b1 x <;> by_cases h2 : b2 x <;>
      simp [h1, h2, List.filterMap_cons, ih]

/-! ### C4: simple moving average alignment and definedness -/

/-- C4: for every window W >= 1 and numeric series of length n >= W the
simple moving average is aligned 1:1 with the input; position i is the
mean of input[i-W+1..i] for i >= W-1 and missing for i < W-1. -/
theorem C4_sma_alignment (prices : List ℚ) (W : ℕ) (hW : 1 ≤ W)
    (hn : W ≤ prices.length) :
    (TechnicalIndicators.sma (prices.map some) W).length = prices.length ∧
    ∀ i, i < prices.length →
      (W - 1 ≤ i →
        (TechnicalIndicators.sma (prices.map some) W).getD i none
          = some (((prices.drop (i + 1 - W)).take W).sum / W)) ∧
      (i < W - 1 →
        (TechnicalIndicators.sma (prices.map some) W).getD i none = none) := by
  constructor
  · simp [TechnicalIndicators.sma]
  · intro i hi
    have hi2 : i < (prices.map some).length := by simpa using hi
    constructor
    · intro hWi
      have hcond : 1 ≤ W ∧ W ≤ i + 1 := ⟨hW, by omega⟩
      have hdrop : (prices.map some).drop (i + 1 - W)
          = (prices.drop (i + 1 - W)).map some := by
        rw [List.map_drop]
      have htake : ((prices.drop (i + 1 - W)).map some).take W
          = ((prices.drop (i + 1 - W)).take W).map some := by
        rw [List.map_take]
      have hid : ((fun (o : Option ℚ) => o.getD 0) ∘ some) = id := by
        funext x; simp
      have hall : ((List.take W (List.drop (i + 1 - W) (List.map some prices))).all
          Option.isSome) = true := by
        simp only [List.all_eq_true]
        intro x hx
        obtain ⟨y, _, rfl⟩ :=
          List.mem_map.mp (List.mem_of_mem_drop (List.mem_of_mem_take hx))
        rfl
      rw [TechnicalIndicators.sma, getD_map_range _ _ _ _ hi2, if_pos hcond]
      simp only []
      rw [if_pos hall, hdrop, htake, List.map_map, hid, List.map_id]
    · intro hlt
      have hcond : ¬ (1 ≤ W ∧ W ≤ i + 1) := by omega
      rw [TechnicalIndicators.sma, getD_map_range _ _ _ _ hi2, if_neg hcond]

/-- Witness for C4 at prices [1, 2, 3] and window 2. -/
theorem C4_sma_alignment_witness :
    (TechnicalIndicators.sma (([1, 2, 3] : List ℚ).map some) 2).length
        = ([1, 2, 3] : List ℚ).length ∧
    ∀ i, i < ([1, 2, 3] : List ℚ).length →
      (2 - 1 ≤ i →
        (TechnicalIndicators.sma (([1, 2, 3] : List ℚ).map some) 2).getD i none
          = some (((([1, 2, 3] : List ℚ).drop (i + 1 - 2)).take 2).sum / 2)) ∧
      (i < 2 - 1 →
        (TechnicalIndicators.sma (([1, 2, 3] : List ℚ).map some) 2).getD i none
          = none) :=
  C4_sma_alignment [1, 2, 3] 2 (by decide) (by decide)

lemma crossSignals_eq_filterMap (sw lw : ℕ) (data : DataFrame) :
    crossSignals sw lw data
      = (List.range' lw (data.nrows - lw)).filterMap (emitAt sw lw data) := by
  unfold crossSignals
  rw [foldl_ifs_filterMap]
  simp only [List.nil_append]
  congr 1

lemma crossSignals_nil (sw lw : ℕ) (data : DataFrame) (h : data.nrows ≤ lw) :
    crossSignals sw lw data = [] := by
  rw [crossSignals_eq_filterMap, Nat.sub_eq_zero_of_le h]
  rfl

lemma mkCrossover_short (a b : ℕ) :
    (mkCrossover a b).get_parameter "short_window" 0 = a := rfl

lemma mkCrossover_long (a b : ℕ) :
    (mkCrossover a b).get_parameter "long_window" 0 = b := by
  simp [mkCrossover, MAStrategy.get_parameter, List.find?]

/-! ### C7: generate_signals is deterministic and pure -/

/-- C7: generate_signals of the moving-average-crossover strategy leaves
the strategy state (name, parameters, bound series, initialized flag,
collected signals) unchanged, and re-running it on the post-call state
yields an identical signal sequence. -/
theorem C7_generate_signals_pure (s : MAStrategy) (data : DataFrame) :
    (s.generate_signals data).1 = s ∧
    ((s.generate_signals data).1.generate_signals data).2
      = (s.generate_signals data).2 :=
  ⟨rfl, rfl⟩

/-! ### C8: a series shorter than the long window yields no signals -/

/-- C8: for the crossover strategy with long window Wl, generate_signals
over a series strictly shorter than Wl returns the empty signal sequence
(window positivity reflects pandas rejecting window = 0). -/
theorem C8_short_series_empty (Ws Wl : ℕ) (data : DataFrame)
    (hWs : 1 ≤ Ws) (hWl : 1 ≤ Wl) (h : data.nrows < Wl) :
    ((mkCrossover Ws Wl).generate_signals data).2 = [] := by
  show crossSignals ((mkCrossover Ws Wl).get_parameter "short_window" 0)
    ((mkCrossover Ws Wl).get_parameter "long_window" 0) data = []
  rw [mkCrossover_short, mkCrossover_long]
  exact crossSignals_nil _ _ _ h.le

/-- Witness for C8: a 3-row series against a long window of 4. -/
theorem C8_short_series_empty_witness :
    ((mkCrossover 2 4).generate_signals
      { index := [0, 1, 2],
        cols := [("Close", [some 1, some 2, some 3])] }).2 = [] :=
  C8_short_series_empty 2 4 _ (by decide) (by decide) (by decide)

/-! ### C3: update before the initialization call -/

/-- C3: update on an uninitialized strategy yields the StateError of the
spec's taxonomy (the code's ValueError) with the state unchanged — the
returned state is the input state; after the initialization call, update
succeeds and the new state's bound series is the old one with exactly the
one new record appended. -/
theorem C3_update_requires_init (s : MAStrategy) (d : DataFrame) (r : Row) :
    (s.initialized = false →
      s.update r
        = (s, Except.error "Strategy must be initialized before updating")) ∧
    (∃ sig, (s.initData d).update r
        = ({ s with data := some (d.appendRow r), initialized := true },
            Except.ok sig)) ∧
    (d.appendRow r).nrows = d.nrows + 1 := by
  refine ⟨fun h => ?_, ⟨(crossSignals (s.get_parameter "short_window" 0)
    (s.get_parameter "long_window" 0) ((d.appendRow r).tail1)).head?, ?_⟩, ?_⟩
  · unfold MAStrategy.update
    rw [if_pos h]
  · rfl
  · simp [DataFrame.appendRow, DataFrame.nrows]

/-- Witness for C3 at a freshly constructed strategy (initialized is
false), a one-row frame and a new record. -/
theorem C3_update_requires_init_witness :
    (mkCrossover 2 4).update { index := 1, cells := [("Close", some 5)] }
        = (mkCrossover 2 4,
            Except.error "Strategy must be initialized before updating") ∧
    (∃ sig, ((mkCrossover 2 4).initData
          { index := [0], cols := [("Close", [some 4])] }).update
            { index := 1, cells := [("Close", some 5)] }
        = ({ mkCrossover 2 4 with
              data := some (DataFrame.appendRow
                { index := [0], cols := [("Close", [some 4])] }
                { index := 1, cells := [("Close", some 5)] }),
              initialized := true },
            Except.ok sig)) ∧
    (DataFrame.appendRow { index := [0], cols := [("Close", [some 4])] }
        { index := 1, cells := [("Close", some 5)] }).nrows
      = (DataFrame.mk [0] [("Close", [some 4])]).nrows + 1 := by
  refine ⟨(C3_update_requires_init (mkCrossover 2 4)
    { index := [0], cols := [("Close", [some 4])] }
    { index := 1, cells := [("Close", some 5)] }).1 rfl,
    (C3_update_requires_init (mkCrossover 2 4)
      { index := [0], cols := [("Close", [some 4])] }
      { index := 1, cells := [("Close", some 5)] }).2.1,
    (C3_update_requires_init (mkCrossover 2 4)
      { index := [0], cols := [("Close", [some 4])] }
      { index := 1, cells := [("Close", some 5)] }).2.2⟩

/-! ### C10: update on the crossover strategy never reports a signal -/

/-- C10: update re-evaluates generate_signals on the one-row tail only,
and the crossover loop over a one-row series is empty for a positive long
window, so an initialized crossover strategy's update always returns None
(window positivity reflects pandas rejecting window = 0). -/
theorem C10_update_always_none (s : MAStrategy) (d : DataFrame) (r : Row)
    (hs : 1 ≤ s.get_parameter "short_window" 0)
    (hl : 1 ≤ s.get_parameter "long_window" 0) :
    ((s.initData d).update r).2 = Except.ok none := by
  unfold MAStrategy.update
  rw [if_neg (by simp [MAStrategy.initData])]
  simp only [MAStrategy.generate_signals]
  rw [crossSignals_nil]
  · rfl
  · have h1 : ((((s.initData d).data.getD { index := [], cols := [] }).appendRow
        r).tail1).nrows = 1 := by
      simp [MAStrategy.initData, DataFrame.appendRow, DataFrame.tail1,
        DataFrame.nrows]
    have h2 : ∀ df : Option DataFrame,
        ({ s.initData d with data := df } : MAStrategy).get_parameter
            "long_window" 0
          = s.get_parameter "long_window" 0 := fun _ => rfl
    rw [h1, h2]
    exact hl

/-- Witness for C10: an initialized strategy with windows 2 and 4 updated
with one record. -/
theorem C10_update_always_none_witness :
    (((mkCrossover 2 4).initData
        { index := [0], cols := [("Close", [some 4])] }).update
          { index := 1, cells := [("Close", some 5)] }).2 = Except.ok none :=
  C10_update_always_none (mkCrossover 2 4)
    { index := [0], cols := [("Close", [some 4])] }
    { index := 1, cells := [("Close", some 5)] } (by decide) (by decide)

/-! ### C9: validate_data is a pure structural column check -/

/-- C9: validate_data returns true iff all five required columns Open,
High, Low, Close, Volume are present; it is a total function of the
column-name list alone, so its result is independent of the cell values
and of the timestamp ordering. -/
theorem C9_validate_data_columns (d e : DataFrame) :
    (validate_data d = true ↔
      ("Open" ∈ d.columns ∧ "High" ∈ d.columns ∧ "Low" ∈ d.columns ∧
        "Close" ∈ d.columns ∧ "Volume" ∈ d.columns)) ∧
    (d.columns = e.columns → validate_data d = validate_data e) := by
  constructor
  · simp [validate_data, List.all_eq_true]
  · intro h
    unfold validate_data
    rw [h]

/-- Witness for C9: two frames sharing the column list (which misses
Volume) but with different cell values and timestamp orders validate
identically — and indeed to false, without any error. -/
theorem C9_validate_data_columns_witness :
    (validate_data
        { index := [1, 0],
          cols := [("Open", [some 1, some 2]), ("High", [some 3, some 4]),
            ("Low", [some 0, some 1]), ("Close", [some 2, some 3])] }
      = validate_data
        { index := [5, 6],
          cols := [("Open", [some 9, none]), ("High", [none, none]),
            ("Low", [some 7, some 7]), ("Close", [some 8, some 8])] }) ∧
    validate_data
        { index := [1, 0],
          cols := [("Open", [some 1, some 2]), ("High", [some 3, some 4]),
            ("Low", [some 0, some 1]), ("Close", [some 2, some 3])] }
      = false :=
  ⟨(C9_validate_data_columns _
      { index := [5, 6],
        cols := [("Open", [some 9, none]), ("High", [none, none]),
          ("Low", [some 7, some 7]), ("Close", [some 8, some 8])] }).2 rfl,
    by decide⟩

/-! ### C2: the implementation's EMA versus the reference recursion -/

lemma getD_replicate {α : Type} (n i : ℕ) (a d : α) (h : i < n) :
    (List.replicate n a).getD i d = a := by
  simp [List.getD_eq_getElem?_getD, List.getElem?_replicate, h]

lemma emaRecAux_replicate (a c : ℚ) (k : ℕ) :
    emaRecAux a c (List.replicate k c) = List.replicate k c := by
  induction k with
  | zero => rfl
  | succ k ih =>
    have hy : a * c + (1 - a) * c = c := by ring
    rw [List.replicate_succ, emaRecAux, hy, ih]

lemma emaRecSpec_replicate (c : ℚ) (m span : ℕ) :
    emaRecSpec (List.replicate m c) span = List.replicate m c := by
  cases m with
  | zero => rfl
  | succ m =>
    rw [List.replicate_succ]
    show c :: emaRecAux (2 / ((span : ℚ) + 1)) c (List.replicate m c)
      = c :: List.replicate m c
    rw [emaRecAux_replicate]

lemma emaWeight_nonneg (span : ℕ) (hs : 1 ≤ span) :
    0 ≤ TechnicalIndicators.emaWeight span := by
  unfold TechnicalIndicators.emaWeight
  have h1 : (1 : ℚ) ≤ (span : ℚ) := by exact_mod_cast hs
  have hpos : (0 : ℚ) < (span : ℚ) + 1 := by linarith
  have : 2 / ((span : ℚ) + 1) ≤ 1 := by
    rw [div_le_one hpos]; linarith
  linarith

lemma emaWeight_sum_pos (span t : ℕ) (hs : 1 ≤ span) :
    0 < ∑ j in Finset.range (t + 1), TechnicalIndicators.emaWeight span ^ j := by
  have hw := emaWeight_nonneg span hs
  have h0 : (0 : ℕ) ∈ Finset.range (t + 1) := by simp
  have hle : (1 : ℚ)
      ≤ ∑ j in Finset.range (t + 1), TechnicalIndicators.emaWeight span ^ j := by
    have := Finset.single_le_sum
      (f := fun j => TechnicalIndicators.emaWeight span ^ j)
      (fun j _ => pow_nonneg hw j) h0
    simpa using this
  linarith

/-- Counterexample to C2: with span 3 (alpha = 1/2) on the series [0, 1],
the implementation's weighted-history EMA gives 2/3 at index 1 while the
spec's reference recursion gives 1/2 — a difference of 1/6, far beyond
floating-point tolerance, so the two formulations are not equivalent. -/
theorem C2_ema_counterexample :
    (TechnicalIndicators.ema [0, 1] 3).getD 1 0 = 2 / 3 ∧
    (emaRecSpec [0, 1] 3).getD 1 0 = 1 / 2 ∧
    (TechnicalIndicators.ema [0, 1] 3).getD 1 0
      ≠ (emaRecSpec [0, 1] 3).getD 1 0 := by
  refine ⟨?_, ?_, ?_⟩ <;>
    norm_num [TechnicalIndicators.ema, TechnicalIndicators.emaWeight,
      emaRecSpec, emaRecAux, Finset.sum_range_succ, List.getD]

/-- C2 as amended: the implementation computes the adjusted
weighted-history EMA (pandas ewm with adjust=True), which is aligned 1:1
with the input and agrees with the spec's reference recursion at index 0
and on constant series, but is not equivalent to it in general. -/
theorem C2_ema_adjusted (prices : List ℚ) (span : ℕ) (hs : 1 ≤ span)
    (hne : prices ≠ []) :
    (TechnicalIndicators.ema prices span).length = prices.length ∧
    (TechnicalIndicators.ema prices span).getD 0 0 = prices.getD 0 0 ∧
    (emaRecSpec prices span).getD 0 0 = prices.getD 0 0 ∧
    ∀ (c : ℚ) (m i : ℕ),
      (TechnicalIndicators.ema (List.replicate m c) span).getD i 0
        = (emaRecSpec (List.replicate m c) span).getD i 0 := by
  refine ⟨by simp [TechnicalIndicators.ema], ?_, ?_, ?_⟩
  · have hlen : 0 < prices.length := List.length_pos.mpr hne
    rw [TechnicalIndicators.ema, getD_map_range _ _ _ _ hlen]
    simp [Finset.sum_range_one]
  · cases prices with
    | nil => exact absurd rfl hne
    | cons x xs => rfl
  · intro c m i
    rw [emaRecSpec_replicate]
    by_cases him : i < m
    · rw [TechnicalIndicators.ema, getD_map_range _ _ _ _ (by simpa using him),
        getD_replicate _ _ _ _ him]
      have hnum : ∀ j ∈ Finset.range (i + 1),
          TechnicalIndicators.emaWeight span ^ j
              * (List.replicate m c).getD (i - j) 0
            = TechnicalIndicators.emaWeight span ^ j * c := by
        intro j hj
        rw [getD_replicate _ _ _ _ (by omega)]
      rw [Finset.sum_congr rfl hnum, ← Finset.sum_mul]
      exact mul_div_cancel_left₀ c (ne_of_gt (emaWeight_sum_pos span i hs))
    · have h1 : (TechnicalIndicators.ema (List.replicate m c) span).length ≤ i := by
        simp [TechnicalIndicators.ema]; omega
      have h2 : (List.replicate m c).length ≤ i := by simp; omega
      rw [List.getD_eq_default _ _ h1, List.getD_eq_default _ _ h2]

/-- Witness for the amended C2 at prices [5, 7] and span 3. -/
theorem C2_ema_adjusted_witness :
    (TechnicalIndicators.ema [5, 7] 3).length = ([5, 7] : List ℚ).length ∧
    (TechnicalIndicators.ema [5, 7] 3).getD 0 0 = ([5, 7] : List ℚ).getD 0 0 ∧
    (emaRecSpec [5, 7] 3).getD 0 0 = ([5, 7] : List ℚ).getD 0 0 ∧
    ∀ (c : ℚ) (m i : ℕ),
      (TechnicalIndicators.ema (List.replicate m c) 3).getD i 0
        = (emaRecSpec (List.replicate m c) 3).getD i 0 :=
  C2_ema_adjusted [5, 7] 3 (by decide) (by decide)

/-! ### C5: cumulative returns invert simple returns -/

lemma getD_map_option (l : List (Option ℚ)) (f : ℚ → ℚ) (i : ℕ) :
    (l.map (Option.map f)).getD i none = Option.map f (l.getD i none) := by
  simp only [List.getD_eq_getElem?_getD, List.getElem?_map]
  cases l[i]? with
  | none => rfl
  | some o => cases o <;> rfl

lemma cumprodAux_getD :
    ∀ (xs : List (Option ℚ)) (a : ℚ) (i : ℕ),
      (xs.getD i none).isSome = true →
      (ReturnCalculator.cumprodAux a xs).getD i none
        = some (a * ((xs.take (i + 1)).filterMap id).prod) := by
  intro xs
  induction xs with
  | nil => intro a i h; simp [List.getD] at h
  | cons x t ih =>
    intro a i h
    cases x with
    | none =>
      cases i with
      | zero => simp [List.getD_cons_zero] at h
      | succ i =>
        rw [List.getD_cons_succ] at h
        show (ReturnCalculator.cumprodAux a (none :: t)).getD (i + 1) none = _
        rw [ReturnCalculator.cumprodAux, List.getD_cons_succ, ih a i h]
        simp
    | some v =>
      cases i with
      | zero =>
        rw [ReturnCalculator.cumprodAux, List.getD_cons_zero]
        simp
      | succ i =>
        rw [List.getD_cons_succ] at h
        rw [ReturnCalculator.cumprodAux, List.getD_cons_succ, ih (a * v) i h]
        simp [mul_assoc]

lemma prod_filterMap_ratio (prices : List ℚ) (h0 : ∀ x ∈ prices, x ≠ 0) :
    ∀ j, j < prices.length →
      ((List.range (j + 1)).filterMap fun k =>
          if k = 0 then none
          else some (prices.getD k 0 / prices.getD (k - 1) 0)).prod
        = prices.getD j 0 / prices.getD 0 0 := by
  intro j
  induction j with
  | zero =>
    intro hj
    have hp0 : prices.getD 0 0 ≠ 0 := by
      rw [List.getD_eq_getElem _ _ hj]
      exact h0 _ (List.getElem_mem hj)
    have hnil : ((List.range (0 + 1)).filterMap fun k =>
        if k = 0 then none
        else some (prices.getD k 0 / prices.getD (k - 1) 0)) = [] := rfl
    rw [hnil, List.prod_nil]
    exact (div_self hp0).symm
  | succ j ih =>
    intro hj
    have hjn : j < prices.length := by omega
    have hpj : prices.getD j 0 ≠ 0 := by
      rw [List.getD_eq_getElem _ _ hjn]
      exact h0 _ (List.getElem_mem hjn)
    rw [List.range_succ, List.filterMap_append, List.prod_append, ih hjn]
    have hG : (List.filterMap (fun k =>
        if k = 0 then none
        else some (prices.getD k 0 / prices.getD (k - 1) 0)) [j + 1]).prod
        = prices.getD (j + 1) 0 / prices.getD j 0 := by
      simp
    rw [hG, div_mul_div_comm, mul_comm (prices.getD 0 0) (prices.getD j 0),
      mul_div_mul_left _ _ hpj]

/-- C5: for a price series with all elements nonzero,
cumulative_returns(simple_returns(prices)) at every index i >= 1 equals
prices[i] / prices[0] - 1 exactly (the round-trip property). -/
theorem C5_round_trip (prices : List ℚ) (h0 : ∀ x ∈ prices, x ≠ 0)
    (i : ℕ) (hi1 : 1 ≤ i) (hin : i < prices.length) :
    (ReturnCalculator.cumulative_returns
        (ReturnCalculator.simple_returns prices)).getD i none
      = some (prices.getD i 0 / prices.getD 0 0 - 1) := by
  have hF : ((ReturnCalculator.simple_returns prices).map
        (Option.map fun r => 1 + r))
      = (List.range prices.length).map fun k =>
          if k = 0 then none
          else some (prices.getD k 0 / prices.getD (k - 1) 0) := by
    unfold ReturnCalculator.simple_returns
    rw [List.map_map]
    refine List.map_congr_left ?_
    intro k hk
    by_cases h : k = 0
    · simp [h]
    · simp only [Function.comp, h, if_false, Option.map_some']
      congr 1
      ring
  unfold ReturnCalculator.cumulative_returns
  rw [hF, getD_map_option]
  have hsome : (((List.range prices.length).map fun k =>
      if k = 0 then none
      else some (prices.getD k 0 / prices.getD (k - 1) 0)).getD i none)
      = some (prices.getD i 0 / prices.getD (i - 1) 0) := by
    rw [getD_map_range _ _ _ _ hin, if_neg (by omega)]
  rw [cumprodAux_getD _ 1 i (by rw [hsome]; rfl)]
  have htake : (((List.range prices.length).map fun k =>
      if k = 0 then none
      else some (prices.getD k 0 / prices.getD (k - 1) 0)).take (i + 1))
      = ((List.range (i + 1)).map fun k =>
          if k = 0 then none
          else some (prices.getD k 0 / prices.getD (k - 1) 0)) := by
    rw [← List.map_take, List.take_range, Nat.min_eq_left (by omega)]
  rw [htake, List.filterMap_map]
  have hid : (id ∘ fun k =>
      if k = 0 then none
      else some (prices.getD k 0 / prices.getD (k - 1) 0))
      = fun k => if k = 0 then none
          else some (prices.getD k 0 / prices.getD (k - 1) 0) := rfl
  rw [hid, prod_filterMap_ratio prices h0 i hin, one_mul]
  rfl

/-- Witness for C5 at prices [2, 4, 8] and index 2:
the round trip recovers 8/2 - 1. -/
theorem C5_round_trip_witness :
    (ReturnCalculator.cumulative_returns
        (ReturnCalculator.simple_returns [2, 4, 8])).getD 2 none
      = some (([2, 4, 8] : List ℚ).getD 2 0 / ([2, 4, 8] : List ℚ).getD 0 0 - 1) :=
  C5_round_trip [2, 4, 8] (by decide) 2 (by decide) (by decide)

/-! ### C6: rsi where the mean loss is zero -/

lemma diff_replicate_map_zero (c : ℚ) (m : ℕ) (h : Option ℚ → ℚ)
    (hn : h none = 0) (h0 : h (some 0) = 0) :
    (TechnicalIndicators.diff (List.replicate m c)).map h
      = List.replicate m 0 := by
  unfold TechnicalIndicators.diff
  rw [List.map_map]
  have hc : ∀ k ∈ List.range (List.replicate m c).length,
      (h ∘ fun i => if i = 0 then none
        else some ((List.replicate m c).getD i 0
          - (List.replicate m c).getD (i - 1) 0)) k = (fun _ => (0 : ℚ)) k := by
    intro k hk
    have hkm : k < m := by simpa using List.mem_range.mp hk
    by_cases hk0 : k = 0
    · simp [hk0, hn]
    · have e1 : (List.replicate m c).getD k 0 = c := getD_replicate _ _ _ _ hkm
      have e2 : (List.replicate m c).getD (k - 1) 0 = c :=
        getD_replicate _ _ _ _ (by omega)
      show h (if k = 0 then none
        else some ((List.replicate m c).getD k 0
          - (List.replicate m c).getD (k - 1) 0)) = 0
      rw [if_neg hk0, e1, e2, sub_self]
      exact h0
  rw [List.map_congr_left hc]
  simp [List.map_const']

lemma sma_replicate_zero (m W j : ℕ) (hj : j < m) :
    (TechnicalIndicators.sma (List.replicate m (some (0 : ℚ))) W).getD j none
      = if 1 ≤ W ∧ W ≤ j + 1 then some 0 else none := by
  have hj2 : j < (List.replicate m (some (0 : ℚ))).length := by simpa using hj
  rw [TechnicalIndicators.sma, getD_map_range _ _ _ _ hj2]
  by_cases hc : 1 ≤ W ∧ W ≤ j + 1
  · rw [if_pos hc, if_pos hc]
    rw [List.drop_replicate, List.take_replicate]
    have hmin : min W (m - (j + 1 - W)) = W := by omega
    rw [hmin]
    have hall : (List.replicate W (some (0 : ℚ))).all Option.isSome = true := by
      simp [List.all_eq_true]
    rw [if_pos hall, List.map_replicate]
    simp
  · rw [if_neg hc, if_neg hc]

/-- Counterexample to C6: for prices [1, 2, 3] with window 2, the rolling
mean of losses at index 2 is zero, yet rsi there is the defined value 100
(gain / 0 is IEEE +inf and 100 - 100/(1 + inf) = 100), not an undefined /
missing output as the claim states. -/
theorem C6_rsi_counterexample :
    (TechnicalIndicators.loss [1, 2, 3] 2).getD 2 none = some 0 ∧
    (TechnicalIndicators.rsi [1, 2, 3] 2).getD 2 FVal.nan = FVal.val 100 := by
  have hdiff : TechnicalIndicators.diff [1, 2, 3] = [none, some 1, some 1] := by
    norm_num [TechnicalIndicators.diff, List.range_succ,
      List.getD_eq_getElem?_getD]
  have hloss : TechnicalIndicators.loss [1, 2, 3] 2
      = [none, some 0, some 0] := by
    rw [TechnicalIndicators.loss, hdiff]
    norm_num [TechnicalIndicators.whereLoss, TechnicalIndicators.sma,
      List.range_succ]
  have hgain : TechnicalIndicators.gain [1, 2, 3] 2
      = [none, some (1 / 2), some 1] := by
    rw [TechnicalIndicators.gain, hdiff]
    norm_num [TechnicalIndicators.whereGain, TechnicalIndicators.sma,
      List.range_succ]
  refine ⟨by rw [hloss]; rfl, ?_⟩
  rw [TechnicalIndicators.rsi,
    getD_map_range _ _ _ _ (by norm_num : (2 : ℕ) < ([1, 2, 3] : List ℚ).length),
    hloss, hgain]
  norm_num [FVal.ofOption, FVal.div, FVal.add, FVal.sub, FVal.neg,
    List.getD_eq_getElem?_getD]

/-- C6 as amended: rsi never raises; at an index where the rolling mean of
losses is zero it is the maximal value 100 when the mean gain is positive
and undefined (NaN) when the mean gain is zero too — in particular every
output position for a constant price series is undefined. -/
theorem C6_rsi_zero_loss (prices : List ℚ) (W i : ℕ) (hi : i < prices.length)
    (g : ℚ) (hg : (TechnicalIndicators.gain prices W).getD i none = some g)
    (hl : (TechnicalIndicators.loss prices W).getD i none = some 0) :
    (0 < g → (TechnicalIndicators.rsi prices W).getD i FVal.nan = FVal.val 100) ∧
    (g = 0 → (TechnicalIndicators.rsi prices W).getD i FVal.nan = FVal.nan) ∧
    ∀ (c : ℚ) (m j : ℕ),
      (TechnicalIndicators.rsi (List.replicate m c) W).getD j FVal.nan
        = FVal.nan := by
  refine ⟨?_, ?_, ?_⟩
  · intro hgpos
    rw [TechnicalIndicators.rsi, getD_map_range _ _ _ _ hi, hg, hl]
    simp [FVal.ofOption, FVal.div, FVal.add, FVal.sub, FVal.neg, hgpos.ne', hgpos]
  · intro hg0
    subst hg0
    rw [TechnicalIndicators.rsi, getD_map_range _ _ _ _ hi, hg, hl]
    simp [FVal.ofOption, FVal.div, FVal.add, FVal.sub, FVal.neg]
  · intro c m j
    by_cases hjm : j < m
    · have hg2 : TechnicalIndicators.gain (List.replicate m c) W
          = TechnicalIndicators.sma (List.replicate m (some (0 : ℚ))) W := by
        unfold TechnicalIndicators.gain
        rw [diff_replicate_map_zero c m TechnicalIndicators.whereGain rfl
          (by simp [TechnicalIndicators.whereGain]), List.map_replicate]
      have hl2 : TechnicalIndicators.loss (List.replicate m c) W
          = TechnicalIndicators.sma (List.replicate m (some (0 : ℚ))) W := by
        unfold TechnicalIndicators.loss
        rw [diff_replicate_map_zero c m TechnicalIndicators.whereLoss rfl
          (by norm_num [TechnicalIndicators.whereLoss]), List.map_replicate]
      rw [TechnicalIndicators.rsi, getD_map_range _ _ _ _ (by simpa using hjm),
        hg2, hl2, sma_replicate_zero m W j hjm]
      by_cases hc : 1 ≤ W ∧ W ≤ j + 1
      · rw [if_pos hc]
        simp [FVal.ofOption, FVal.div, FVal.add, FVal.sub, FVal.neg]
      · rw [if_neg hc]
        simp [FVal.ofOption, FVal.div, FVal.add, FVal.sub, FVal.neg]
    · have hlen : (TechnicalIndicators.rsi (List.replicate m c) W).length ≤ j := by
        simp [TechnicalIndicators.rsi]
        omega
      rw [List.getD_eq_default _ _ hlen]

/-- Witness for the amended C6: prices [1, 2, 3] with window 2 give rsi
100 at index 2 (mean loss zero, mean gain 1 > 0), and the constant series
of three 5s gives NaN at index 2. -/
theorem C6_rsi_zero_loss_witness :
    (TechnicalIndicators.rsi [1, 2, 3] 2).getD 2 FVal.nan = FVal.val 100 ∧
    (TechnicalIndicators.rsi (List.replicate 3 (5 : ℚ)) 2).getD 2 FVal.nan
      = FVal.nan := by
  have hdiff : TechnicalIndicators.diff [1, 2, 3] = [none, some 1, some 1] := by
    norm_num [TechnicalIndicators.diff, List.range_succ,
      List.getD_eq_getElem?_getD]
  have hloss : (TechnicalIndicators.loss [1, 2, 3] 2).getD 2 none = some 0 := by
    rw [TechnicalIndicators.loss, hdiff]
    norm_num [TechnicalIndicators.whereLoss, TechnicalIndicators.sma,
      List.range_succ, List.getD_eq_getElem?_getD]
  have hgain : (TechnicalIndicators.gain [1, 2, 3] 2).getD 2 none = some 1 := by
    rw [TechnicalIndicators.gain, hdiff]
    norm_num [TechnicalIndicators.whereGain, TechnicalIndicators.sma,
      List.range_succ, List.getD_eq_getElem?_getD]
  have h := C6_rsi_zero_loss [1, 2, 3] 2 2 (by norm_num) 1 hgain hloss
  exact ⟨h.1 (by norm_num), h.2.2 5 3 2⟩

/-! ### C1: the crossover emission rule -/

lemma index_getD_inj (l : List ℕ) (hnd : l.Nodup) {i j : ℕ}
    (hi : i < l.length) (hj : j < l.length)
    (h : l[i]?.getD 0 = l[j]?.getD 0) : i = j := by
  rw [List.getElem?_eq_getElem hi, List.getElem?_eq_getElem hj] at h
  simp only [Option.getD_some] at h
  exact (List.Nodup.getElem_inj_iff hnd).mp h

lemma oltB_ogtB_false (a b : Option ℚ) (h1 : oltB a b = true)
    (h2 : ogtB a b = true) : False := by
  cases a <;> cases b <;> simp [oltB, ogtB] at h1 h2
  exact absurd h2 (not_lt.mpr h1.le)

lemma ogtB_self_false (a : Option ℚ) : ogtB a a = false := by
  cases a <;> simp [ogtB]

lemma oltB_self_false (a : Option ℚ) : oltB a a = false := by
  cases a <;> simp [oltB]

/-- C1: for the crossover strategy with windows Ws and Wl (positive, as
pandas requires) over a series with distinct timestamps, a Buy signal is
emitted at index i in [Wl, n) exactly when the previous short SMA is <=
the previous long SMA and the current short SMA is > the current long SMA
(a comparison with a missing value is false, as in pandas), a Sell exactly
in the mirrored case with strict <, every emitted signal carries the Close
price at its index and strength 1, and equal SMAs at i never produce a
cross. -/
theorem C1_crossover_rule (Ws Wl : ℕ) (data : DataFrame) (hWs : 1 ≤ Ws) (hWl : 1 ≤ Wl)
    (hnd : data.index.Nodup) (i : ℕ) (hi1 : Wl ≤ i) (hi2 : i < data.nrows) :
    (buySignalAt data i ∈ ((mkCrossover Ws Wl).generate_signals data).2 ↔
      (oleB ((TechnicalIndicators.sma (data.col "Close") Ws).getD (i - 1) none)
          ((TechnicalIndicators.sma (data.col "Close") Wl).getD (i - 1) none)
          = true ∧
        ogtB ((TechnicalIndicators.sma (data.col "Close") Ws).getD i none)
          ((TechnicalIndicators.sma (data.col "Close") Wl).getD i none)
          = true)) ∧
    (sellSignalAt data i ∈ ((mkCrossover Ws Wl).generate_signals data).2 ↔
      (ogeB ((TechnicalIndicators.sma (data.col "Close") Ws).getD (i - 1) none)
          ((TechnicalIndicators.sma (data.col "Close") Wl).getD (i - 1) none)
          = true ∧
        oltB ((TechnicalIndicators.sma (data.col "Close") Ws).getD i none)
          ((TechnicalIndicators.sma (data.col "Close") Wl).getD i none)
          = true)) ∧
    (∀ sg ∈ ((mkCrossover Ws Wl).generate_signals data).2,
      sg.strength = 1 ∧ ∃ j, Wl ≤ j ∧ j < data.nrows ∧
        (sg = buySignalAt data j ∨ sg = sellSignalAt data j)) ∧
    ((TechnicalIndicators.sma (data.col "Close") Ws).getD i none
        = (TechnicalIndicators.sma (data.col "Close") Wl).getD i none →
      buySignalAt data i ∉ ((mkCrossover Ws Wl).generate_signals data).2 ∧
      sellSignalAt data i ∉ ((mkCrossover Ws Wl).generate_signals data).2) := by
  have hsigs : ((mkCrossover Ws Wl).generate_signals data).2
      = (List.range' Wl (data.nrows - Wl)).filterMap (emitAt Ws Wl data) := by
    show crossSignals ((mkCrossover Ws Wl).get_parameter "short_window" 0)
      ((mkCrossover Ws Wl).get_parameter "long_window" 0) data = _
    rw [mkCrossover_short, mkCrossover_long, crossSignals_eq_filterMap]
  have hmemr : ∀ j, j ∈ List.range' Wl (data.nrows - Wl)
      ↔ (Wl ≤ j ∧ j < data.nrows) := by
    intro j
    rw [List.mem_range'_1]
    omega
  have hstep : ∀ j sg, emitAt Ws Wl data j = some sg →
      (sg = buySignalAt data j ∧
        oleB ((TechnicalIndicators.sma (data.col "Close") Ws).getD (j - 1) none)
            ((TechnicalIndicators.sma (data.col "Close") Wl).getD (j - 1) none)
            = true ∧
        ogtB ((TechnicalIndicators.sma (data.col "Close") Ws).getD j none)
            ((TechnicalIndicators.sma (data.col "Close") Wl).getD j none)
            = true) ∨
      (sg = sellSignalAt data j ∧
        ogeB ((TechnicalIndicators.sma (data.col "Close") Ws).getD (j - 1) none)
            ((TechnicalIndicators.sma (data.col "Close") Wl).getD (j - 1) none)
            = true ∧
        oltB ((TechnicalIndicators.sma (data.col "Close") Ws).getD j none)
            ((TechnicalIndicators.sma (data.col "Close") Wl).getD j none)
            = true) := by
    intro j sg h
    simp only [emitAt] at h
    split_ifs at h with h1 h2
    · exact Or.inl ⟨(Option.some_injective _ h).symm,
        (Bool.and_eq_true _ _ |>.mp h1).1, (Bool.and_eq_true _ _ |>.mp h1).2⟩
    · exact Or.inr ⟨(Option.some_injective _ h).symm,
        (Bool.and_eq_true _ _ |>.mp h2).1, (Bool.and_eq_true _ _ |>.mp h2).2⟩
  have hbuy_ne_sell : ∀ a b : ℕ, buySignalAt data a ≠ sellSignalAt data b := by
    intro a b h
    have := congrArg Signal.signal_type h
    simp [buySignalAt, sellSignalAt] at this
  have hts : ∀ a b : ℕ, a < data.nrows → b < data.nrows →
      buySignalAt data a = buySignalAt data b → a = b := by
    intro a b ha hb h
    have := congrArg Signal.timestamp h
    simp [buySignalAt] at this
    exact index_getD_inj data.index hnd ha hb this
  have hts2 : ∀ a b : ℕ, a < data.nrows → b < data.nrows →
      sellSignalAt data a = sellSignalAt data b → a = b := by
    intro a b ha hb h
    have := congrArg Signal.timestamp h
    simp [sellSignalAt] at this
    exact index_getD_inj data.index hnd ha hb this
  constructor
  · constructor
    · intro hmem
      rw [hsigs] at hmem
      obtain ⟨j, hj1, hj2⟩ := List.mem_filterMap.mp hmem
      obtain ⟨hjl, hjn⟩ := (hmemr j).mp hj1
      rcases hstep j _ hj2 with ⟨heq, hc1, hc2⟩ | ⟨heq, _, _⟩
      · obtain rfl := hts i j hi2 hjn heq
        exact ⟨hc1, hc2⟩
      · exact absurd heq (hbuy_ne_sell i j)
    · intro ⟨hc1, hc2⟩
      rw [hsigs]
      refine List.mem_filterMap.mpr ⟨i, (hmemr i).mpr ⟨hi1, hi2⟩, ?_⟩
      simp only [emitAt]
      rw [if_pos (Bool.and_eq_true _ _ |>.mpr ⟨hc1, hc2⟩)]
  constructor
  · constructor
    · intro hmem
      rw [hsigs] at hmem
      obtain ⟨j, hj1, hj2⟩ := List.mem_filterMap.mp hmem
      obtain ⟨hjl, hjn⟩ := (hmemr j).mp hj1
      rcases hstep j _ hj2 with ⟨heq, _, _⟩ | ⟨heq, hc1, hc2⟩
      · exact absurd heq (Ne.symm (hbuy_ne_sell j i))
      · obtain rfl := hts2 i j hi2 hjn heq
        exact ⟨hc1, hc2⟩
    · intro ⟨hc1, hc2⟩
      rw [hsigs]
      refine List.mem_filterMap.mpr ⟨i, (hmemr i).mpr ⟨hi1, hi2⟩, ?_⟩
      simp only [emitAt]
      rw [if_neg, if_pos (Bool.and_eq_true _ _ |>.mpr ⟨hc1, hc2⟩)]
      intro hb
      exact oltB_ogtB_false _ _ hc2 (Bool.and_eq_true _ _ |>.mp hb).2
  constructor
  · intro sg hmem
    rw [hsigs] at hmem
    obtain ⟨j, hj1, hj2⟩ := List.mem_filterMap.mp hmem
    obtain ⟨hjl, hjn⟩ := (hmemr j).mp hj1
    rcases hstep j _ hj2 with ⟨heq, _, _⟩ | ⟨heq, _, _⟩
    · exact ⟨by rw [heq]; rfl, j, hjl, hjn, Or.inl heq⟩
    · exact ⟨by rw [heq]; rfl, j, hjl, hjn, Or.inr heq⟩
  · intro heq
    constructor
    · intro hmem
      rw [hsigs] at hmem
      obtain ⟨j, hj1, hj2⟩ := List.mem_filterMap.mp hmem
      obtain ⟨hjl, hjn⟩ := (hmemr j).mp hj1
      rcases hstep j _ hj2 with ⟨heq2, _, hc2⟩ | ⟨heq2, _, _⟩
      · obtain rfl := hts i j hi2 hjn heq2
        rw [heq, ogtB_self_false] at hc2
        exact Bool.false_ne_true hc2
      · exact absurd heq2 (hbuy_ne_sell i j)
    · intro hmem
      rw [hsigs] at hmem
      obtain ⟨j, hj1, hj2⟩ := List.mem_filterMap.mp hmem
      obtain ⟨hjl, hjn⟩ := (hmemr j).mp hj1
      rcases hstep j _ hj2 with ⟨heq2, _, _⟩ | ⟨heq2, _, hc2⟩
      · exact absurd heq2 (Ne.symm (hbuy_ne_sell j i))
      · obtain rfl := hts2 i j hi2 hjn heq2
        rw [heq, oltB_self_false] at hc2
        exact Bool.false_ne_true hc2

/-- Witness for C1: Close series [10, 10, 10, 9, 12] with Ws = 2, Wl = 4
emits a Buy at index 4 (previous 19/2 <= 39/4, current 21/2 > 41/4). -/
theorem C1_crossover_rule_witness :
    buySignalAt
        { index := [0, 1, 2, 3, 4],
          cols := [("Close",
            [some 10, some 10, some 10, some 9, some 12])] } 4
      ∈ ((mkCrossover 2 4).generate_signals
        { index := [0, 1, 2, 3, 4],
          cols := [("Close",
            [some 10, some 10, some 10, some 9, some 12])] }).2 := by
  have hcol : (DataFrame.mk [0, 1, 2, 3, 4]
      [("Close", [some 10, some 10, some 10, some 9, some 12])]).col "Close"
      = [some 10, some 10, some 10, some 9, some 12] := rfl
  have hs2 : TechnicalIndicators.sma
      [some 10, some 10, some 10, some 9, some 12] 2
      = [none, some 10, some 10, some (19 / 2), some (21 / 2)] := by
    norm_num [TechnicalIndicators.sma, List.range_succ]
  have hs4 : TechnicalIndicators.sma
      [some 10, some 10, some 10, some 9, some 12] 4
      = [none, none, none, some (39 / 4), some (41 / 4)] := by
    norm_num [TechnicalIndicators.sma, List.range_succ]
  have h := C1_crossover_rule 2 4
    { index := [0, 1, 2, 3, 4],
      cols := [("Close", [some 10, some 10, some 10, some 9, some 12])] }
    (by decide) (by decide) (by decide) 4 (by decide) (by decide)
  refine h.1.mpr ⟨?_, ?_⟩
  · rw [hcol, hs2, hs4]
    norm_num [oleB]
  · rw [hcol, hs2, hs4]
    norm_num [ogtB]
